import Mathlib

/-!
Verification of the regobslib APS core (aps.py) against its specification.

The Python source is shallowly embedded: dates and region identifiers are
integers, machine floats on percentile values are modelled as integers
(no claim depends on their arithmetic), `None`-able attributes become
`Option`, and code that raises `ValueError` becomes `Except ApsError`.
Python truthiness on optional integers (`None` and `0` are falsy) is
modelled explicitly by `pyTruthy`.
-/

/-- Calendar dates, abstracted to integers; only equality and ordering of
dates matter to the embedded code (ISO parsing is not modelled). -/
abbrev Date := Int

/-- Region identifiers (`SnowRegion(int(...))` in the source; region.py is
not in scope, the constructor is modelled as the identity on codes). -/
abbrev SnowRegion := Int

/-- The error taxonomy of the spec (§7).  The source raises `ValueError`
with distinguishing messages; each message is mapped to its named error.
`typeError` stands for Python's `TypeError` raised by an order comparison
against `None`. -/
inductive ApsError where
  | invalidShape
  | unknownRegion
  | incompatibleMerge
  | conflictingData
  | invalidArgument
  | keyNotFound
  | emptyContainer
  | typeError
deriving DecidableEq, Repr

/-- Python truthiness of an optional integer: `None` and `0` are falsy. -/
def pyTruthy (x : Option Int) : Bool :=
  match x with
  | none => false
  | some v => v != 0

/-- The seven weather-parameter kinds (the `Data` subclasses of aps.py). -/
inductive WeatherParam where
  | precip
  | precipMax
  | temp
  | wind
  | snowDepth
  | newSnow
  | newSnowMax
deriving DecidableEq, Repr

/-- `WEATHER_ATTRS.values()` — the iteration order of the seven slots. -/
def WeatherParam.all : List WeatherParam :=
  [.precip, .precipMax, .temp, .wind, .snowDepth, .newSnow, .newSnowMax]

/-- The wire code (`WEATHER_PARAM`) of each kind. -/
def WeatherParam.wireCode : WeatherParam → Int
  | .precip => 0
  | .precipMax => 100
  | .temp => 17
  | .wind => 18
  | .snowDepth => 2002
  | .newSnow => 2013
  | .newSnowMax => 2113

/-- `Data` of aps.py: a seven-percentile distribution snapshot.  All seven
attributes are initialised to `None` and set on deserialization. -/
structure Measurement where
  perc00 : Option Int := none
  perc05 : Option Int := none
  perc25 : Option Int := none
  perc50 : Option Int := none
  perc75 : Option Int := none
  perc95 : Option Int := none
  perc100 : Option Int := none
deriving DecidableEq, Repr

/-- `Level` of aps.py: one elevation band, `floor`/`roof`/`index`
initialised to `None`, and one optional `Measurement` slot per
weather-parameter kind. -/
structure Level where
  floor : Option Int := none
  roof : Option Int := none
  index : Option Int := none
  precip : Option Measurement := none
  precip_max : Option Measurement := none
  temp : Option Measurement := none
  wind : Option Measurement := none
  snow_depth : Option Measurement := none
  new_snow : Option Measurement := none
  new_snow_max : Option Measurement := none
deriving DecidableEq, Repr

/-- `Level()`: the freshly constructed band (everything `None`). -/
def Level.empty : Level := {}

/-- `getattr(level, WEATHER_ATTRS[kind])`. -/
def Level.get (l : Level) : WeatherParam → Option Measurement
  | .precip => l.precip
  | .precipMax => l.precip_max
  | .temp => l.temp
  | .wind => l.wind
  | .snowDepth => l.snow_depth
  | .newSnow => l.new_snow
  | .newSnowMax => l.new_snow_max

/-- `setattr(level, WEATHER_ATTRS[kind], v)`. -/
def Level.set (l : Level) (k : WeatherParam) (v : Option Measurement) : Level :=
  match k with
  | .precip => { l with precip := v }
  | .precipMax => { l with precip_max := v }
  | .temp => { l with temp := v }
  | .wind => { l with wind := v }
  | .snowDepth => { l with snow_depth := v }
  | .newSnow => { l with new_snow := v }
  | .newSnowMax => { l with new_snow_max := v }

/-- `Level.__bool__`: a band is present iff some slot is populated. -/
def Level.present (l : Level) : Bool :=
  WeatherParam.all.any (fun k => (l.get k).isSome)

/-- `max_or_not_none` inside `Level.assimilate`:
`max(a, b) if a and b else a or b`, with Python truthiness (`None` and
`0` are both falsy). -/
def max_or_not_none (s o : Option Int) : Option Int :=
  if pyTruthy s && pyTruthy o then some (max (s.getD 0) (o.getD 0))
  else if pyTruthy s then s else o

/-- Python `s or o` on optional measurements: `s` when it is not `None`,
else `o` (a `Data` object is always truthy). -/
def pyOrMeas (a b : Option Measurement) : Option Measurement :=
  if a.isSome then a else b

/-- The slot loop of `Level.assimilate`: for each weather attribute in
order, if exactly one side holds data take it, if both hold data raise
`ConflictingData`, otherwise leave the slot empty. -/
def Level.assimSlots (s o : Level) : List WeatherParam → Level → Except ApsError Level
  | [], lvl => .ok lvl
  | k :: ks, lvl =>
    if (s.get k).isSome != (o.get k).isSome then
      Level.assimSlots s o ks (lvl.set k (pyOrMeas (s.get k) (o.get k)))
    else if (s.get k).isSome && (o.get k).isSome then
      .error .conflictingData
    else
      Level.assimSlots s o ks lvl

/-- `Level.assimilate`: numeric fields resolved by `max_or_not_none`,
then the slot loop over `WEATHER_ATTRS.values()`. -/
def Level.assimilate (s o : Level) : Except ApsError Level :=
  Level.assimSlots s o WeatherParam.all
    { floor := max_or_not_none s.floor o.floor
      roof := max_or_not_none s.roof o.roof
      index := max_or_not_none s.index o.index }

/-- `Day` of aps.py: one calendar date for one region with an ordered
list of elevation bands. -/
structure Day where
  date : Date
  region : SnowRegion
  levels : List Level
deriving DecidableEq, Repr

/-- `Day.__bool__`: present iff some band is present. -/
def Day.present (d : Day) : Bool :=
  d.levels.any Level.present

/-- The band-pairing loop of `Day.assimilate`, written as an explicit
`Except`-valued map over the index range (Python raises out of the loop
at the first conflicting pair). -/
def mapExcept (f : Nat → Except ApsError Level) : List Nat → Except ApsError (List Level)
  | [] => .ok []
  | i :: is =>
    match f i with
    | .error e => .error e
    | .ok l =>
      match mapExcept f is with
      | .error e => .error e
      | .ok ls => .ok (l :: ls)

/-- `Day.assimilate`: fail with `IncompatibleMerge` on a date or region
mismatch; take the other side's bands wholesale when one side has none;
otherwise pair bands positionally for `i < max(len(a), len(b))`, reusing
the shorter list's last band (`min(i, len - 1)`). -/
def Day.assimilate (a b : Day) : Except ApsError Day :=
  if a.date ≠ b.date ∨ a.region ≠ b.region then .error .incompatibleMerge
  else if a.levels.isEmpty then .ok { date := a.date, region := a.region, levels := b.levels }
  else if b.levels.isEmpty then .ok { date := a.date, region := a.region, levels := a.levels }
  else
    match mapExcept
        (fun i => Level.assimilate
          (a.levels.getD (min i (a.levels.length - 1)) Level.empty)
          (b.levels.getD (min i (b.levels.length - 1)) Level.empty))
        (List.range (max a.levels.length b.levels.length)) with
    | .ok ls => .ok { date := a.date, region := a.region, levels := ls }
    | .error e => .error e

/-- `Timeline` of aps.py: the ordered mapping date → `Day`, backed by the
`Container`/`OrderedDict` abstraction of misc.py.  Modelled from the spec:
misc.py is not in src/; per §4.1 the container is an insertion-ordered
mapping iterated in insertion order, and it is truthy iff it holds at
least one record. -/
structure Timeline where
  days : List (Date × Day)
deriving DecidableEq, Repr

/-- `OrderedDict.__setitem__`: replace in place when the key exists
(keeping its position), otherwise append. -/
def setKey (key : Date) (d : Day) : List (Date × Day) → List (Date × Day)
  | [] => [(key, d)]
  | p :: ps => if p.1 = key then (key, d) :: ps else p :: setKey key d ps

/-- `Timeline.get_region`: raise on an empty timeline, else the region of
the first record in iteration order.  (Modelled from the spec: the
container's emptiness test and iteration order, see `Timeline`.) -/
def Timeline.get_region (tl : Timeline) : Except ApsError SnowRegion :=
  match tl.days with
  | [] => .error .emptyContainer
  | p :: _ => .ok p.2.region

/-- One Python order comparison `x <= y` where `x` may be `None`
(a `TypeError` in Python 3). -/
def pyLe (x : Option Int) (y : Int) : Except ApsError Bool :=
  match x with
  | none => .error .typeError
  | some a => .ok (decide (a ≤ y))

/-- The row-selection condition shared by `Day.to_frame` and
`Timeline.to_frame`:
`elevation is None and level_index is None
 or elevation and lvl.floor <= elevation and (not lvl.roof or elevation < lvl.roof)
 or lvl.index == level_index`,
with Python short-circuiting and truthiness (`elevation == 0` is falsy,
`roof` of `None` or `0` is falsy). -/
def Level.frameSelected (l : Level) (elevation levelIndex : Option Int) :
    Except ApsError Bool :=
  if elevation = none ∧ levelIndex = none then .ok true
  else if pyTruthy elevation then
    if l.floor.isSome then
      if l.floor.getD 0 ≤ elevation.getD 0 ∧
          (pyTruthy l.roof = false ∨ elevation.getD 0 < l.roof.getD 0)
      then .ok true
      else .ok (decide (l.index = levelIndex))
    else .error .typeError
  else .ok (decide (l.index = levelIndex))

/-- The band comprehension of `Day.to_frame` (and the inner loop of
`Timeline.to_frame`): the bands passing `Level.frameSelected`, in order. -/
def selectLevels (elevation levelIndex : Option Int) : List Level → Except ApsError (List Level)
  | [] => .ok []
  | l :: ls =>
    match l.frameSelected elevation levelIndex with
    | .error e => .error e
    | .ok b =>
      match selectLevels elevation levelIndex ls with
      | .error e => .error e
      | .ok rest => .ok (if b then l :: rest else rest)

/-- `Day.to_frame`, restricted to its row selection: validate the
mutually exclusive filters (`ValueError` — `InvalidArgument` — when both
are supplied), then select bands.  The later pandas display filtering
(dropping all-empty rows and the literal label `"0"`) is not part of the
selection. -/
def Day.frameRows (d : Day) (elevation levelIndex : Option Int) :
    Except ApsError (List Level) :=
  if elevation.isSome ∧ levelIndex.isSome then .error .invalidArgument
  else selectLevels elevation levelIndex d.levels

/-- The row comprehension of `Timeline.to_frame`:
`for day in self if day for lvl in day.levels if <condition>`, keyed by
`(day.date, …)`. -/
def selectRows (elevation levelIndex : Option Int) :
    List (Date × Day) → Except ApsError (List (Date × Level))
  | [] => .ok []
  | p :: ps =>
    if p.2.present then
      match selectLevels elevation levelIndex p.2.levels with
      | .error e => .error e
      | .ok sel =>
        match selectRows elevation levelIndex ps with
        | .error e => .error e
        | .ok rest => .ok (sel.map (fun l => (p.2.date, l)) ++ rest)
    else selectRows elevation levelIndex ps

/-- `Timeline.to_frame`, restricted to its row selection.  It performs no
filter validation; after building the rows it derives the region for the
frame name (`df.name = self.get_region()`), which raises on an empty
timeline. -/
def Timeline.frameRows (tl : Timeline) (elevation levelIndex : Option Int) :
    Except ApsError (List (Date × Level)) :=
  match selectRows elevation levelIndex tl.days with
  | .error e => .error e
  | .ok rows =>
    match tl.get_region with
    | .error e => .error e
    | .ok _ => .ok rows

/-- `Aps` of aps.py: the ordered mapping region → `Timeline` (same
spec-modelled container as `Timeline`). -/
structure Aps where
  elems : List (SnowRegion × Timeline)
deriving DecidableEq, Repr

/-- Stable insertion into a key-sorted list (keeps the inserted element
before later equal keys). -/
def insertSorted (p : SnowRegion × Timeline) :
    List (SnowRegion × Timeline) → List (SnowRegion × Timeline)
  | [] => [p]
  | q :: qs => if q.1 < p.1 then q :: insertSorted p qs else p :: q :: qs

/-- `Container._sort`: a stable ascending sort by key.  Modelled from the
spec: §4.1 `sortByKey`, misc.py not being in src/. -/
def sortByKey : List (SnowRegion × Timeline) → List (SnowRegion × Timeline)
  | [] => []
  | p :: ps => insertSorted p (sortByKey ps)

/-- The timeline comprehension of `Aps.to_frame`: iterate the sorted,
empties-filtered timelines (`self._sort()._filter_empty()`, modelled from
spec §4.1), and for each compute its rows and its region key. -/
def apsRows (elevation levelIndex : Option Int) :
    List (SnowRegion × Timeline) → Except ApsError (List (SnowRegion × List (Date × Level)))
  | [] => .ok []
  | p :: ps =>
    if p.2.days.isEmpty then apsRows elevation levelIndex ps
    else
      match p.2.frameRows elevation levelIndex with
      | .error e => .error e
      | .ok rows =>
        match p.2.get_region with
        | .error e => .error e
        | .ok r =>
          match apsRows elevation levelIndex ps with
          | .error e => .error e
          | .ok rest => .ok ((r, rows) :: rest)

/-- `Aps.to_frame`, restricted to its row selection. -/
def Aps.frameRows (aps : Aps) (elevation levelIndex : Option Int) :
    Except ApsError (List (SnowRegion × List (Date × Level))) :=
  apsRows elevation levelIndex
    (sortByKey (aps.elems.filter (fun p => !p.2.days.isEmpty)))

/-- The wire shape of one elevation-band entry: aps.py reads the three
elevation keys and the seven percentile keys from the same flat JSON
dictionary (`ApsJsonData`).  Field names mirror the wire keys.  Values
are modelled as integers. -/
structure ApsJsonData where
  ElevationBottom : Int
  ElevationTop : Int
  ElevationBand : Int
  Minimum : Int
  Perc05 : Int
  FirstQuartile : Int
  Median : Int
  ThirdQuartile : Int
  Perc95 : Int
  Maximum : Int
deriving DecidableEq, Repr

/-- One wire region entry (`{RegionId, ElevationData}`). -/
structure ApsJsonRegion where
  RegionId : Int
  ElevationData : List ApsJsonData
deriving DecidableEq, Repr

/-- One wire day entry (`{FormattedDate, Regions}`); the date string is
abstracted to the parsed date. -/
structure ApsJsonDay where
  FormattedDate : Date
  Regions : List ApsJsonRegion
deriving DecidableEq, Repr

/-- The full wire payload (`{TimeLine: [...]}`). -/
structure ApsJsonFull where
  TimeLine : List ApsJsonDay
deriving DecidableEq, Repr

/-- `Data.deserialize`: note that both `perc05` and `perc95` are read
from the wire key `"Perc05"`; the wire key `"Perc95"` is never read. -/
def Data.deserialize (j : ApsJsonData) : Measurement :=
  { perc00 := some j.Minimum
    perc05 := some j.Perc05
    perc25 := some j.FirstQuartile
    perc50 := some j.Median
    perc75 := some j.ThirdQuartile
    perc95 := some j.Perc05
    perc100 := some j.Maximum }

/-- `Level.deserialize`: set `floor`, map a falsy `ElevationTop` to
`None`, set `index`, and populate only the requested kind's slot.  The
dynamic `data_type` class checks of the source cannot fire in a typed
embedding and are omitted. -/
def Level.deserialize (j : ApsJsonData) (dataType : WeatherParam) : Level :=
  (({ floor := some j.ElevationBottom
      roof := if j.ElevationTop ≠ 0 then some j.ElevationTop else none
      index := some j.ElevationBand } : Level)).set dataType
    (some (Data.deserialize j))

/-- `Day.deserialize`: raise `InvalidShape` when a day has no regions;
otherwise use only `Regions[0]`, building one band per elevation entry
(an empty elevation list yields a day with zero bands). -/
def Day.deserialize (j : ApsJsonDay) (dataType : WeatherParam) : Except ApsError Day :=
  match j.Regions with
  | [] => .error .invalidShape
  | r0 :: _ =>
    .ok { date := j.FormattedDate
          region := r0.RegionId
          levels := r0.ElevationData.map (fun lj => Level.deserialize lj dataType) }

/-- The loop of `Timeline.deserialize`: `timeline[date] = Day.deserialize(...)`
for each wire day, in order. -/
def Timeline.deserializeDays (dataType : WeatherParam) :
    List ApsJsonDay → Timeline → Except ApsError Timeline
  | [], tl => .ok tl
  | dj :: rest, tl =>
    match Day.deserialize dj dataType with
    | .error e => .error e
    | .ok day => Timeline.deserializeDays dataType rest ⟨setKey dj.FormattedDate day tl.days⟩

/-- `Timeline.deserialize`: fold the wire days into a fresh timeline. -/
def Timeline.deserialize (j : ApsJsonFull) (dataType : WeatherParam) :
    Except ApsError Timeline :=
  Timeline.deserializeDays dataType j.TimeLine ⟨[]⟩

/-- `Aps.deserialize`: deserialize the timeline, derive its region
(raising on an empty timeline), and store the single entry. -/
def Aps.deserialize (j : ApsJsonFull) (dataType : WeatherParam) :
    Except ApsError Aps :=
  match Timeline.deserialize j dataType with
  | .error e => .error e
  | .ok tl =>
    match tl.get_region with
    | .error e => .error e
    | .ok r => .ok ⟨[(r, tl)]⟩

/-! ## Helper lemmas about the merge loops -/

theorem weatherParam_mem_all (k : WeatherParam) : k ∈ WeatherParam.all := by
  cases k <;> simp [WeatherParam.all]

theorem assimSlots_error (s o : Level) :
    ∀ ks lvl e, Level.assimSlots s o ks lvl = .error e → e = .conflictingData := by
  intro ks
  induction ks with
  | nil =>
    intro lvl e h
    simp [Level.assimSlots] at h
  | cons k ks ih =>
    intro lvl e h
    cases hs : s.get k <;> cases ho : o.get k <;>
        simp [Level.assimSlots, hs, ho] at h
    · exact ih _ _ h
    · exact ih _ _ h
    · exact ih _ _ h
    · exact h.symm

theorem assimSlots_conflict (s o : Level) (k : WeatherParam) :
    ∀ ks lvl, k ∈ ks → (s.get k).isSome = true → (o.get k).isSome = true →
      Level.assimSlots s o ks lvl = .error .conflictingData := by
  intro ks
  induction ks with
  | nil =>
    intro lvl hmem _ _
    simp at hmem
  | cons k' ks ih =>
    intro lvl hmem hsk hok
    rcases List.mem_cons.mp hmem with heq | htail
    · subst heq
      obtain ⟨ms, hms⟩ := Option.isSome_iff_exists.mp hsk
      obtain ⟨mo, hmo⟩ := Option.isSome_iff_exists.mp hok
      simp [Level.assimSlots, hms, hmo]
    · cases hs : s.get k' <;> cases ho : o.get k' <;>
          simp [Level.assimSlots, hs, ho]
      · exact ih _ htail hsk hok
      · exact ih _ htail hsk hok
      · exact ih _ htail hsk hok

theorem level_assimilate_error (s o : Level) (e : ApsError)
    (h : Level.assimilate s o = .error e) : e = .conflictingData :=
  assimSlots_error s o _ _ e h

theorem level_assimilate_conflict (s o : Level) (k : WeatherParam)
    (hsk : (s.get k).isSome = true) (hok : (o.get k).isSome = true) :
    Level.assimilate s o = .error .conflictingData :=
  assimSlots_conflict s o k WeatherParam.all _ (weatherParam_mem_all k) hsk hok

theorem mapExcept_ok (f : Nat → Except ApsError Level) :
    ∀ is ls, mapExcept f is = .ok ls →
      ls.length = is.length ∧
      ∀ j, j < is.length → f (is.getD j 0) = .ok (ls.getD j Level.empty) := by
  intro is
  induction is with
  | nil =>
    intro ls h
    simp [mapExcept] at h
    subst h
    exact ⟨rfl, by intro j hj; simp at hj⟩
  | cons i is ih =>
    intro ls h
    cases hf : f i with
    | error e => simp [mapExcept, hf] at h
    | ok l =>
      cases hm : mapExcept f is with
      | error e => simp [mapExcept, hf, hm] at h
      | ok ls' =>
        simp [mapExcept, hf, hm] at h
        subst h
        obtain ⟨hlen, hidx⟩ := ih ls' hm
        refine ⟨by simp [hlen], ?_⟩
        intro j hj
        cases j with
        | zero => simpa using hf
        | succ j' =>
          simp only [List.getD_cons_succ]
          exact hidx j' (by simpa using hj)

theorem mapExcept_error_mem (f : Nat → Except ApsError Level) :
    ∀ is e, mapExcept f is = .error e → ∃ i ∈ is, f i = .error e := by
  intro is
  induction is with
  | nil =>
    intro e h
    simp [mapExcept] at h
  | cons i is ih =>
    intro e h
    cases hf : f i with
    | error e' =>
      simp [mapExcept, hf] at h
      exact ⟨i, by simp, by rw [hf, h]⟩
    | ok l =>
      cases hm : mapExcept f is with
      | error e' =>
        simp [mapExcept, hf, hm] at h
        obtain ⟨i', hi', hfi'⟩ := ih e' hm
        exact ⟨i', by simp [hi'], by rw [hfi', h]⟩
      | ok ls' => simp [mapExcept, hf, hm] at h

theorem range_getD (n j : Nat) (hj : j < n) : (List.range n).getD j 0 = j := by
  rw [List.getD_eq_getElem _ _ (by simpa using hj)]
  simp

theorem day_assimilate_not_incompatible (a b : Day)
    (hd : a.date = b.date) (hr : a.region = b.region) :
    ¬(a.date ≠ b.date ∨ a.region ≠ b.region) := by
  simp [hd, hr]

theorem isEmpty_false_of_ne_nil {α : Type} {l : List α} (h : l ≠ []) : l.isEmpty = false := by
  cases l with
  | nil => exact absurd rfl h
  | cons x xs => rfl

theorem day_assimilate_eq (a b : Day) (hd : a.date = b.date) (hr : a.region = b.region)
    (hae : a.levels.isEmpty = false) (hbe : b.levels.isEmpty = false) :
    Day.assimilate a b =
      match mapExcept (fun i => Level.assimilate
          (a.levels.getD (min i (a.levels.length - 1)) Level.empty)
          (b.levels.getD (min i (b.levels.length - 1)) Level.empty))
        (List.range (max a.levels.length b.levels.length)) with
      | .ok ls => .ok { date := a.date, region := a.region, levels := ls }
      | .error e => .error e := by
  rw [Day.assimilate, if_neg (day_assimilate_not_incompatible a b hd hr), hae, hbe]
  simp

/-- C1: for `DayRecord`s with equal date and region, whatever the band
counts, if some positional band index carries data of the same
weather-parameter kind on both sides, `assimilate` fails with
`ConflictingData`. -/
theorem day_assimilate_conflict (a b : Day) (i : Nat) (k : WeatherParam)
    (hd : a.date = b.date) (hr : a.region = b.region)
    (ha : i < a.levels.length) (hb : i < b.levels.length)
    (hsa : ((a.levels.getD i Level.empty).get k).isSome = true)
    (hsb : ((b.levels.getD i Level.empty).get k).isSome = true) :
    Day.assimilate a b = .error .conflictingData := by
  have hane : a.levels.isEmpty = false :=
    isEmpty_false_of_ne_nil (by intro h; rw [h] at ha; simp at ha)
  have hbne : b.levels.isEmpty = false :=
    isEmpty_false_of_ne_nil (by intro h; rw [h] at hb; simp at hb)
  have hmina : min i (a.levels.length - 1) = i := by omega
  have hminb : min i (b.levels.length - 1) = i := by omega
  have hflt : Level.assimilate (a.levels.getD i Level.empty) (b.levels.getD i Level.empty)
      = .error .conflictingData := level_assimilate_conflict _ _ k hsa hsb
  rw [day_assimilate_eq a b hd hr hane hbne]
  cases hm : mapExcept (fun i => Level.assimilate
      (a.levels.getD (min i (a.levels.length - 1)) Level.empty)
      (b.levels.getD (min i (b.levels.length - 1)) Level.empty))
      (List.range (max a.levels.length b.levels.length)) with
  | ok ls =>
    exfalso
    obtain ⟨hlen, hidx⟩ := mapExcept_ok _ _ _ hm
    have hin : i < (List.range (max a.levels.length b.levels.length)).length := by
      simp [List.length_range]
      omega
    have hfi := hidx i hin
    rw [range_getD _ _ (by omega)] at hfi
    simp only [hmina, hminb] at hfi
    rw [hflt] at hfi
    exact Except.noConfusion hfi
  | error e =>
    obtain ⟨i', hi', hfi'⟩ := mapExcept_error_mem _ _ _ hm
    have he : e = .conflictingData := level_assimilate_error _ _ _ hfi'
    simp [he]

def mW : Measurement := { perc50 := some 120 }

def lvlW1 : Level :=
  { floor := some 0, roof := none, index := some 1, temp := some mW }

def dayW1 : Day :=
  { date := 100, region := 3003, levels := [lvlW1] }

def lvlW2 : Level :=
  { floor := some 0, roof := some 600, index := some 1, temp := some { perc50 := some 80 } }

def dayW2 : Day :=
  { date := 100, region := 3003, levels := [lvlW2] }

theorem day_assimilate_conflict_witness :
    Day.assimilate dayW1 dayW2 = .error .conflictingData :=
  day_assimilate_conflict dayW1 dayW2 0 .temp rfl rfl (by decide) (by decide)
    (by decide) (by decide)

/-- C2: for `DayRecord`s with equal date and region: when one side has no
bands the other's band list is returned wholesale; when both sides have
bands and the merge succeeds, the result has `max(len(a), len(b))` bands
and band `i` is the merge of `a[min(i, len(a)-1)]` with
`b[min(i, len(b)-1)]` (the shorter list's last band reused). -/
theorem day_assimilate_bands (a b : Day) (hd : a.date = b.date) (hr : a.region = b.region) :
    (a.levels = [] → Day.assimilate a b = .ok ⟨a.date, a.region, b.levels⟩) ∧
    (b.levels = [] → a.levels ≠ [] → Day.assimilate a b = .ok ⟨a.date, a.region, a.levels⟩) ∧
    (∀ d, a.levels ≠ [] → b.levels ≠ [] → Day.assimilate a b = .ok d →
      d.levels.length = max a.levels.length b.levels.length ∧
      ∀ i, i < max a.levels.length b.levels.length →
        Level.assimilate (a.levels.getD (min i (a.levels.length - 1)) Level.empty)
          (b.levels.getD (min i (b.levels.length - 1)) Level.empty)
          = .ok (d.levels.getD i Level.empty)) := by
  refine ⟨?_, ?_, ?_⟩
  · intro h1
    rw [Day.assimilate, if_neg (day_assimilate_not_incompatible a b hd hr), h1]
    simp
  · intro h1 h2
    rw [Day.assimilate, if_neg (day_assimilate_not_incompatible a b hd hr),
      isEmpty_false_of_ne_nil h2, h1]
    simp
  · intro d h1 h2 h3
    rw [day_assimilate_eq a b hd hr (isEmpty_false_of_ne_nil h1)
      (isEmpty_false_of_ne_nil h2)] at h3
    cases hm2 : mapExcept (fun i => Level.assimilate
        (a.levels.getD (min i (a.levels.length - 1)) Level.empty)
        (b.levels.getD (min i (b.levels.length - 1)) Level.empty))
        (List.range (max a.levels.length b.levels.length)) with
    | ok ls =>
      rw [hm2] at h3
      simp only [Except.ok.injEq] at h3
      obtain ⟨hlen, hidx⟩ := mapExcept_ok _ _ _ hm2
      have hdl : d.levels = ls := by rw [← h3]
      constructor
      · rw [hdl, hlen, List.length_range]
      · intro i hi
        have hin : i < (List.range (max a.levels.length b.levels.length)).length := by
          simpa [List.length_range] using hi
        have hfi := hidx i hin
        rw [range_getD _ _ hi] at hfi
        rw [hdl]
        exact hfi
    | error e =>
      rw [hm2] at h3
      exact Except.noConfusion h3

def dayW3 : Day :=
  { date := 100, region := 3003, levels := [] }

def lvlW4 : Level :=
  { floor := some 0, roof := none, index := some 1, wind := some mW }

def dayW4 : Day :=
  { date := 100, region := 3003, levels := [lvlW4] }

theorem day_assimilate_bands_witness :
    Day.assimilate dayW3 dayW4 = .ok ⟨dayW3.date, dayW3.region, dayW4.levels⟩ :=
  (day_assimilate_bands dayW3 dayW4 (by decide) (by decide)).1 (by decide)

/-- C5: `Day.assimilate` on mismatching dates or regions fails with
`IncompatibleMerge`; in the `Except` model an error result carries no
partially built record. -/
theorem day_assimilate_incompatible (a b : Day)
    (h : a.date ≠ b.date ∨ a.region ≠ b.region) :
    Day.assimilate a b = .error .incompatibleMerge := by
  rw [Day.assimilate, if_pos h]

theorem day_assimilate_incompatible_witness :
    Day.assimilate dayW1 { dayW1 with date := 101 } = .error .incompatibleMerge :=
  day_assimilate_incompatible dayW1 { dayW1 with date := 101 } (Or.inl (by decide))

/-! ## Commutativity of assimilate (claim C3) -/

/-- The condition under which `max_or_not_none` is order-independent:
not one side `None` while the other is a present `0` (both are falsy to
Python, and the resolution then returns its second operand). -/
def fieldComm (x y : Option Int) : Prop :=
  ¬(x = none ∧ y = some 0) ∧ ¬(x = some 0 ∧ y = none)

instance (x y : Option Int) : Decidable (fieldComm x y) := by
  unfold fieldComm
  infer_instance

theorem fieldComm_symm {x y : Option Int} (h : fieldComm x y) : fieldComm y x :=
  ⟨fun hp => h.2 ⟨hp.2, hp.1⟩, fun hp => h.1 ⟨hp.2, hp.1⟩⟩

def levelFieldComm (la lb : Level) : Prop :=
  fieldComm la.floor lb.floor ∧ fieldComm la.roof lb.roof ∧ fieldComm la.index lb.index

instance (la lb : Level) : Decidable (levelFieldComm la lb) := by
  unfold levelFieldComm
  infer_instance

theorem max_or_not_none_comm (x y : Option Int) (h : fieldComm x y) :
    max_or_not_none x y = max_or_not_none y x := by
  cases x with
  | none =>
    cases y with
    | none => rfl
    | some b =>
      have hb : b ≠ 0 := by
        intro hb0
        exact h.1 ⟨rfl, by rw [hb0]⟩
      simp [max_or_not_none, pyTruthy, hb]
  | some a =>
    cases y with
    | none =>
      have ha : a ≠ 0 := by
        intro ha0
        exact h.2 ⟨by rw [ha0], rfl⟩
      simp [max_or_not_none, pyTruthy, ha]
    | some b =>
      by_cases ha : a = 0 <;> by_cases hb : b = 0 <;>
        simp [max_or_not_none, pyTruthy, ha, hb, max_comm]

theorem assimSlots_comm (s o : Level) :
    ∀ ks lvl, Level.assimSlots s o ks lvl = Level.assimSlots o s ks lvl := by
  intro ks
  induction ks with
  | nil => intro lvl; rfl
  | cons k ks ih =>
    intro lvl
    cases hs : s.get k <;> cases ho : o.get k <;>
      simp [Level.assimSlots, hs, ho, pyOrMeas]
    · exact ih _
    · exact ih _
    · exact ih _

theorem level_assimilate_comm (s o : Level)
    (h1 : fieldComm s.floor o.floor) (h2 : fieldComm s.roof o.roof)
    (h3 : fieldComm s.index o.index) :
    Level.assimilate s o = Level.assimilate o s := by
  unfold Level.assimilate
  rw [max_or_not_none_comm s.floor o.floor h1, max_or_not_none_comm s.roof o.roof h2,
    max_or_not_none_comm s.index o.index h3, assimSlots_comm]

theorem mapExcept_congr (f g : Nat → Except ApsError Level) :
    ∀ is, (∀ i ∈ is, f i = g i) → mapExcept f is = mapExcept g is := by
  intro is
  induction is with
  | nil => intro _; rfl
  | cons i is ih =>
    intro h
    have hi : f i = g i := h i (by simp)
    have ht : mapExcept f is = mapExcept g is := ih (fun j hj => h j (by simp [hj]))
    simp [mapExcept, hi, ht]

/-- C3 (amended): `assimilate` on `DayRecord`s with equal date and region
and disjoint slot coverage is commutative in produced values, provided
that at no paired band position a numeric field is `None` on one side and
a present `0` on the other (both are falsy to Python, which makes the
merged field order-dependent there).  When either side has no bands no
pairing occurs — the other's bands are taken wholesale — and the merge is
unconditionally commutative, so the proviso only constrains the case
where both sides have bands. -/
theorem day_assimilate_comm (a b d : Day)
    (hd : a.date = b.date) (hr : a.region = b.region)
    (hf : a.levels ≠ [] → b.levels ≠ [] →
      ∀ i, i < max a.levels.length b.levels.length →
      levelFieldComm (a.levels.getD (min i (a.levels.length - 1)) Level.empty)
        (b.levels.getD (min i (b.levels.length - 1)) Level.empty))
    (h : Day.assimilate a b = .ok d) :
    Day.assimilate b a = .ok d := by
  by_cases hae : a.levels = []
  · rw [Day.assimilate, if_neg (day_assimilate_not_incompatible a b hd hr), hae] at h
    simp at h
    rw [Day.assimilate, if_neg (day_assimilate_not_incompatible b a hd.symm hr.symm)]
    by_cases hbe : b.levels = []
    · rw [hbe]
      simp
      rw [← h]
      simp [hd.symm, hr.symm, hae, hbe]
    · rw [isEmpty_false_of_ne_nil hbe, hae]
      simp
      rw [← h]
      simp [hd.symm, hr.symm]
  · by_cases hbe : b.levels = []
    · rw [Day.assimilate, if_neg (day_assimilate_not_incompatible a b hd hr),
        isEmpty_false_of_ne_nil hae, hbe] at h
      simp at h
      rw [Day.assimilate, if_neg (day_assimilate_not_incompatible b a hd.symm hr.symm), hbe]
      simp
      rw [← h]
      simp [hd.symm, hr.symm]
    · rw [day_assimilate_eq a b hd hr (isEmpty_false_of_ne_nil hae)
        (isEmpty_false_of_ne_nil hbe)] at h
      rw [day_assimilate_eq b a hd.symm hr.symm (isEmpty_false_of_ne_nil hbe)
        (isEmpty_false_of_ne_nil hae)]
      have hcong : mapExcept (fun i => Level.assimilate
            (b.levels.getD (min i (b.levels.length - 1)) Level.empty)
            (a.levels.getD (min i (a.levels.length - 1)) Level.empty))
          (List.range (max b.levels.length a.levels.length))
          = mapExcept (fun i => Level.assimilate
            (a.levels.getD (min i (a.levels.length - 1)) Level.empty)
            (b.levels.getD (min i (b.levels.length - 1)) Level.empty))
          (List.range (max a.levels.length b.levels.length)) := by
        rw [Nat.max_comm]
        apply mapExcept_congr
        intro i hi
        have hi' : i < max a.levels.length b.levels.length := by
          simpa [List.mem_range] using hi
        obtain ⟨hc1, hc2, hc3⟩ := hf hae hbe i hi'
        exact level_assimilate_comm _ _ (fieldComm_symm hc1) (fieldComm_symm hc2)
          (fieldComm_symm hc3)
      rw [hcong]
      cases hm : mapExcept (fun i => Level.assimilate
          (a.levels.getD (min i (a.levels.length - 1)) Level.empty)
          (b.levels.getD (min i (b.levels.length - 1)) Level.empty))
          (List.range (max a.levels.length b.levels.length)) with
      | ok ls =>
        rw [hm] at h
        simp only [Except.ok.injEq] at h
        simp only [Except.ok.injEq]
        rw [← h]
        simp [hd.symm, hr.symm]
      | error e =>
        rw [hm] at h
        exact Except.noConfusion h

def lvlC3a : Level :=
  { floor := some 100, roof := some 0, index := some 1, temp := some mW }

def lvlC3b : Level :=
  { floor := some 100, roof := none, index := some 1, wind := some mW }

def dayC3a : Day :=
  { date := 100, region := 3003, levels := [lvlC3a] }

def dayC3b : Day :=
  { date := 100, region := 3003, levels := [lvlC3b] }

def lvlC3ab : Level :=
  { floor := some 100, roof := none, index := some 1, temp := some mW, wind := some mW }

def lvlC3ba : Level :=
  { floor := some 100, roof := some 0, index := some 1, temp := some mW, wind := some mW }

def dayC3ab : Day :=
  { date := 100, region := 3003, levels := [lvlC3ab] }

def dayC3ba : Day :=
  { date := 100, region := 3003, levels := [lvlC3ba] }

theorem day_assimilate_comm_counterexample :
    Day.assimilate dayC3a dayC3b = .ok dayC3ab ∧
    Day.assimilate dayC3b dayC3a = .ok dayC3ba ∧ dayC3ab ≠ dayC3ba :=
  ⟨rfl, rfl, by decide⟩

def lvlC3w : Level :=
  { floor := some 0, roof := none, index := some 1, temp := some mW, wind := some mW }

def dayC3w : Day :=
  { date := 100, region := 3003, levels := [lvlC3w] }

theorem day_assimilate_comm_witness : Day.assimilate dayW4 dayW1 = .ok dayC3w :=
  day_assimilate_comm dayW1 dayW4 dayC3w rfl rfl (by decide) rfl

/-! ## Numeric field resolution (claim C4) -/

/-- A numeric field value that Python treats as absent under truthiness:
`None` or a present `0`. -/
def falsyNum (x : Option Int) : Prop := x = none ∨ x = some 0

instance (x : Option Int) : Decidable (falsyNum x) := by
  unfold falsyNum
  infer_instance

/-- Extensional description of how one numeric field is resolved by the
merge: the larger when both are present and nonzero, the present nonzero
one when exactly one is, and the right operand (absent or `0`) when
neither is present-and-nonzero. -/
def resolvesNumeric (x y z : Option Int) : Prop :=
  (∀ u v, x = some u → u ≠ 0 → y = some v → v ≠ 0 → z = some (max u v)) ∧
  (∀ u, x = some u → u ≠ 0 → falsyNum y → z = some u) ∧
  (∀ v, falsyNum x → y = some v → v ≠ 0 → z = some v) ∧
  (falsyNum x → falsyNum y → z = y)

theorem max_or_not_none_resolves (x y : Option Int) :
    resolvesNumeric x y (max_or_not_none x y) := by
  refine ⟨?_, ?_, ?_, ?_⟩
  · intro u v hx hu hy hv
    subst hx
    subst hy
    simp [max_or_not_none, pyTruthy, hu, hv]
  · intro u hx hu hy
    subst hx
    rcases hy with h | h <;> subst h <;> simp [max_or_not_none, pyTruthy, hu]
  · intro v hx hy hv
    subst hy
    rcases hx with h | h <;> subst h <;> simp [max_or_not_none, pyTruthy, hv]
  · intro hx hy
    rcases hx with h | h <;> subst h <;>
      rcases hy with h' | h' <;> subst h' <;> simp [max_or_not_none, pyTruthy]

theorem level_set_numeric (l : Level) (k : WeatherParam) (v : Option Measurement) :
    (l.set k v).floor = l.floor ∧ (l.set k v).roof = l.roof ∧ (l.set k v).index = l.index := by
  cases k <;> exact ⟨rfl, rfl, rfl⟩

theorem assimSlots_numeric (s o : Level) :
    ∀ ks lvl r, Level.assimSlots s o ks lvl = .ok r →
      r.floor = lvl.floor ∧ r.roof = lvl.roof ∧ r.index = lvl.index := by
  intro ks
  induction ks with
  | nil =>
    intro lvl r h
    simp [Level.assimSlots] at h
    subst h
    exact ⟨rfl, rfl, rfl⟩
  | cons k ks ih =>
    intro lvl r h
    cases hs : s.get k <;> cases ho : o.get k <;>
        simp [Level.assimSlots, hs, ho] at h
    · exact ih _ _ h
    · obtain ⟨f1, f2, f3⟩ := ih _ _ h
      exact ⟨f1.trans (level_set_numeric lvl k _).1, f2.trans (level_set_numeric lvl k _).2.1,
        f3.trans (level_set_numeric lvl k _).2.2⟩
    · obtain ⟨f1, f2, f3⟩ := ih _ _ h
      exact ⟨f1.trans (level_set_numeric lvl k _).1, f2.trans (level_set_numeric lvl k _).2.1,
        f3.trans (level_set_numeric lvl k _).2.2⟩

/-- C4 (amended): each numeric field (`floor`, `roof`, `index`) of a
successful band merge is the larger of the two when both are present and
nonzero, the present nonzero one when exactly one is, and otherwise the
second operand's value — i.e. `0` behaves like absent (Python
truthiness), so a present `0` on one side with the other side absent
yields absent, not `0`. -/
theorem level_assimilate_numeric (s o r : Level) (h : Level.assimilate s o = .ok r) :
    resolvesNumeric s.floor o.floor r.floor ∧
    resolvesNumeric s.roof o.roof r.roof ∧
    resolvesNumeric s.index o.index r.index := by
  obtain ⟨hfl, hrf, hix⟩ := assimSlots_numeric s o WeatherParam.all _ r h
  rw [hfl, hrf, hix]
  exact ⟨max_or_not_none_resolves _ _, max_or_not_none_resolves _ _,
    max_or_not_none_resolves _ _⟩

theorem level_assimilate_numeric_counterexample :
    lvlC3a.roof = some 0 ∧ lvlC3b.roof = none ∧
    Level.assimilate lvlC3a lvlC3b = .ok lvlC3ab ∧ lvlC3ab.roof = none :=
  ⟨rfl, rfl, rfl, rfl⟩

theorem level_assimilate_numeric_witness :
    resolvesNumeric lvlW1.floor lvlW4.floor lvlC3w.floor ∧
    resolvesNumeric lvlW1.roof lvlW4.roof lvlC3w.roof ∧
    resolvesNumeric lvlW1.index lvlW4.index lvlC3w.index :=
  level_assimilate_numeric lvlW1 lvlW4 lvlC3w rfl

/-! ## Tabular export row selection (claims C6, C7) -/

/-- Spec-side description of the rows produced by `Timeline.to_frame`:
the bands of present days passing a selection predicate, keyed by the
day's date, in iteration order. -/
def specRows (sel : Level → Bool) : List (Date × Day) → List (Date × Level)
  | [] => []
  | p :: ps =>
    if p.2.present then
      (p.2.levels.filter sel).map (fun l => (p.2.date, l)) ++ specRows sel ps
    else specRows sel ps

/-- Spec-side selection for a nonzero elevation filter `e`: the band's
vertical range contains `e` (with an absent-or-zero roof unbounded), or
the band's index is absent (`index == None` matches the absent index
filter). -/
def elevSelected (e : Int) (l : Level) : Bool :=
  decide (l.floor.getD 0 ≤ e ∧ (pyTruthy l.roof = false ∨ e < l.roof.getD 0)) ||
    decide (l.index = none)

theorem frameSelected_nonzero (l : Level) (e : Int) (he : e ≠ 0)
    (hf : l.floor.isSome = true) :
    l.frameSelected (some e) none = .ok (elevSelected e l) := by
  unfold Level.frameSelected
  rw [if_neg (by simp)]
  rw [if_pos (by simp [pyTruthy, he])]
  rw [if_pos hf]
  simp only [Option.getD_some]
  by_cases hc : l.floor.getD 0 ≤ e ∧ (pyTruthy l.roof = false ∨ e < l.roof.getD 0)
  · rw [if_pos hc]
    unfold elevSelected
    rw [decide_eq_true hc]
    simp
  · rw [if_neg hc]
    unfold elevSelected
    rw [decide_eq_false hc]
    simp

theorem frameSelected_zero (l : Level) :
    l.frameSelected (some 0) none = .ok (decide (l.index = none)) := by
  unfold Level.frameSelected
  rw [if_neg (by simp)]
  rw [if_neg (by simp [pyTruthy])]

theorem selectLevels_of_selected (elevation levelIndex : Option Int) (sel : Level → Bool) :
    ∀ ls : List Level, (∀ l ∈ ls, l.frameSelected elevation levelIndex = .ok (sel l)) →
      selectLevels elevation levelIndex ls = .ok (ls.filter sel) := by
  intro ls
  induction ls with
  | nil => intro _; rfl
  | cons l ls ih =>
    intro h
    have hl : l.frameSelected elevation levelIndex = .ok (sel l) := h l (by simp)
    have ht := ih (fun x hx => h x (by simp [hx]))
    rw [selectLevels, hl, ht, List.filter_cons]

theorem selectRows_of_selected (elevation levelIndex : Option Int) (sel : Level → Bool) :
    ∀ ds : List (Date × Day),
      (∀ p ∈ ds, (p.2 : Day).present = true →
        ∀ l ∈ (p.2 : Day).levels, l.frameSelected elevation levelIndex = .ok (sel l)) →
      selectRows elevation levelIndex ds = .ok (specRows sel ds) := by
  intro ds
  induction ds with
  | nil => intro _; rfl
  | cons p ps ih =>
    intro h
    have ht := ih (fun q hq => h q (by simp [hq]))
    rw [selectRows, specRows]
    cases hp : p.2.present with
    | false => simp [ht]
    | true =>
      have hsel := selectLevels_of_selected elevation levelIndex sel p.2.levels
        (h p (by simp) hp)
      simp [hsel, ht]

/-- The region key of one timeline in `Aps.to_frame`: the first record's
region, as `get_region` computes it on the non-empty timelines that
survive the empties filter (the `[]` branch is unreachable there). -/
def timelineRegionKey (tl : Timeline) : SnowRegion :=
  match tl.days with
  | [] => 0
  | q :: _ => q.2.region

theorem get_region_eq_key (tl : Timeline) (h : tl.days.isEmpty = false) :
    tl.get_region = .ok (timelineRegionKey tl) := by
  cases hd : tl.days with
  | nil =>
    rw [hd] at h
    simp at h
  | cons q qs =>
    unfold Timeline.get_region timelineRegionKey
    rw [hd]

/-- Spec-side description of the rows of `Aps.to_frame`: each non-empty
timeline of the sorted, empties-filtered iteration contributes its region
key and its selected rows. -/
def apsSpecRows (sel : Level → Bool) :
    List (SnowRegion × Timeline) → List (SnowRegion × List (Date × Level))
  | [] => []
  | p :: ps =>
    if p.2.days.isEmpty then apsSpecRows sel ps
    else (timelineRegionKey p.2, specRows sel p.2.days) :: apsSpecRows sel ps

theorem apsRows_of_selected (elevation levelIndex : Option Int) (sel : Level → Bool) :
    ∀ ps : List (SnowRegion × Timeline),
      (∀ p ∈ ps, ∀ q ∈ (p.2 : Timeline).days, (q.2 : Day).present = true →
        ∀ l ∈ (q.2 : Day).levels, l.frameSelected elevation levelIndex = .ok (sel l)) →
      apsRows elevation levelIndex ps = .ok (apsSpecRows sel ps) := by
  intro ps
  induction ps with
  | nil => intro _; rfl
  | cons p ps ih =>
    intro h
    have ht := ih (fun x hx => h x (by simp [hx]))
    by_cases hemp : p.2.days.isEmpty = true
    · rw [apsRows, if_pos hemp, apsSpecRows, if_pos hemp]
      exact ht
    · have hempf : p.2.days.isEmpty = false := by
        cases hb : p.2.days.isEmpty
        · rfl
        · exact absurd hb hemp
      have hsr : selectRows elevation levelIndex p.2.days = .ok (specRows sel p.2.days) :=
        selectRows_of_selected _ _ _ p.2.days (h p (by simp))
      have hfr : p.2.frameRows elevation levelIndex = .ok (specRows sel p.2.days) := by
        unfold Timeline.frameRows
        rw [hsr, get_region_eq_key p.2 hempf]
      rw [apsRows, if_neg hemp, hfr, get_region_eq_key p.2 hempf, ht,
        apsSpecRows, if_neg hemp]

theorem mem_insertSorted (p q : SnowRegion × Timeline) :
    ∀ ps : List (SnowRegion × Timeline), q ∈ insertSorted p ps ↔ q = p ∨ q ∈ ps := by
  intro ps
  induction ps with
  | nil => simp [insertSorted]
  | cons r rs ih =>
    unfold insertSorted
    by_cases h : r.1 < p.1
    · rw [if_pos h]
      simp only [List.mem_cons, ih]
      tauto
    · rw [if_neg h]
      simp only [List.mem_cons]

theorem mem_sortByKey (q : SnowRegion × Timeline) :
    ∀ ps : List (SnowRegion × Timeline), q ∈ sortByKey ps ↔ q ∈ ps := by
  intro ps
  induction ps with
  | nil => simp [sortByKey]
  | cons r rs ih =>
    rw [sortByKey, mem_insertSorted]
    simp only [List.mem_cons, ih]

/-- C6 (amended): with an elevation filter `e` and no index filter, the
row selection shared by the `DayRecord`, `Timeline` and `Dataset` exports
keeps, among the bands considered (all bands at `Day` level; present
days' bands at `Timeline` level; present days' bands of non-empty
timelines, sorted by region, at `Aps` level): for `e ≠ 0`, exactly the
bands whose range contains `e` (absent-or-zero roof unbounded) together
with every band whose index is absent; for `e = 0` the elevation filter
is inert (Python truthiness) and exactly the bands with an absent index
are kept. -/
theorem frame_elevation_rows (d : Day) (tl : Timeline) (aps : Aps) (e : Int) :
    (e ≠ 0 → (∀ l ∈ d.levels, l.floor.isSome = true) →
      Day.frameRows d (some e) none = .ok (d.levels.filter (elevSelected e))) ∧
    (Day.frameRows d (some 0) none
      = .ok (d.levels.filter (fun l => decide (l.index = none)))) ∧
    (e ≠ 0 → tl.days ≠ [] →
      (∀ p ∈ tl.days, (p.2 : Day).present = true →
        ∀ l ∈ (p.2 : Day).levels, l.floor.isSome = true) →
      Timeline.frameRows tl (some e) none = .ok (specRows (elevSelected e) tl.days)) ∧
    (tl.days ≠ [] → Timeline.frameRows tl (some 0) none
      = .ok (specRows (fun l => decide (l.index = none)) tl.days)) ∧
    (e ≠ 0 →
      (∀ p ∈ aps.elems, ∀ q ∈ (p.2 : Timeline).days, (q.2 : Day).present = true →
        ∀ l ∈ (q.2 : Day).levels, l.floor.isSome = true) →
      Aps.frameRows aps (some e) none
        = .ok (apsSpecRows (elevSelected e)
            (sortByKey (aps.elems.filter (fun p => !p.2.days.isEmpty))))) ∧
    (Aps.frameRows aps (some 0) none
      = .ok (apsSpecRows (fun l => decide (l.index = none))
          (sortByKey (aps.elems.filter (fun p => !p.2.days.isEmpty))))) := by
  refine ⟨?_, ?_, ?_, ?_, ?_, ?_⟩
  · intro he hfl
    rw [Day.frameRows, if_neg (by simp)]
    exact selectLevels_of_selected _ _ _ d.levels
      (fun l hl => frameSelected_nonzero l e he (hfl l hl))
  · rw [Day.frameRows, if_neg (by simp)]
    exact selectLevels_of_selected _ _ _ d.levels (fun l _ => frameSelected_zero l)
  · intro he hne hfl
    have hsr : selectRows (some e) none tl.days = .ok (specRows (elevSelected e) tl.days) :=
      selectRows_of_selected _ _ _ tl.days
        (fun p hp hpres l hl => frameSelected_nonzero l e he (hfl p hp hpres l hl))
    unfold Timeline.frameRows
    rw [hsr, get_region_eq_key tl (isEmpty_false_of_ne_nil hne)]
  · intro hne
    have hsr : selectRows (some 0) none tl.days
        = .ok (specRows (fun l => decide (l.index = none)) tl.days) :=
      selectRows_of_selected _ _ _ tl.days (fun p _ _ l _ => frameSelected_zero l)
    unfold Timeline.frameRows
    rw [hsr, get_region_eq_key tl (isEmpty_false_of_ne_nil hne)]
  · intro he hfl
    unfold Aps.frameRows
    apply apsRows_of_selected
    intro p hp q hq hpres l hl
    have hp2 : p ∈ aps.elems := (List.mem_filter.mp ((mem_sortByKey p _).mp hp)).1
    exact frameSelected_nonzero l e he (hfl p hp2 q hq hpres l hl)
  · unfold Aps.frameRows
    apply apsRows_of_selected
    intro p _ q _ _ l _
    exact frameSelected_zero l

def lvlC6 : Level :=
  { floor := some 300, roof := some 600, index := some 1, temp := some mW }

def dayC6 : Day :=
  { date := 5, region := 3003, levels := [lvlC6] }

def tlC6 : Timeline := ⟨[(5, dayC6)]⟩

def apsC6 : Aps := ⟨[(3003, tlC6)]⟩

theorem frame_elevation_rows_witness :
    Day.frameRows dayC6 (some 500) none = .ok (dayC6.levels.filter (elevSelected 500)) ∧
    Timeline.frameRows tlC6 (some 500) none = .ok (specRows (elevSelected 500) tlC6.days) ∧
    Aps.frameRows apsC6 (some 500) none
      = .ok (apsSpecRows (elevSelected 500)
          (sortByKey (apsC6.elems.filter (fun p => !p.2.days.isEmpty)))) :=
  ⟨(frame_elevation_rows dayC6 tlC6 apsC6 500).1 (by decide) (by decide),
    (frame_elevation_rows dayC6 tlC6 apsC6 500).2.2.1 (by decide) (by decide) (by decide),
    (frame_elevation_rows dayC6 tlC6 apsC6 500).2.2.2.2.1 (by decide) (by decide)⟩

def lvlC6z : Level :=
  { floor := some 0, roof := none, index := some 1, temp := some mW }

def dayC6z : Day :=
  { date := 7, region := 3003, levels := [lvlC6z] }

def tlC6z : Timeline := ⟨[(7, dayC6z)]⟩

theorem frame_elevation_zero_counterexample :
    lvlC6z.floor = some 0 ∧ lvlC6z.roof = none ∧ dayC6z.present = true ∧
    Timeline.frameRows tlC6z (some 0) none = .ok [] :=
  ⟨rfl, rfl, rfl, rfl⟩

theorem frameSelected_error (l : Level) (elevation levelIndex : Option Int) (er : ApsError)
    (h : l.frameSelected elevation levelIndex = .error er) : er = .typeError := by
  unfold Level.frameSelected at h
  by_cases h1 : elevation = none ∧ levelIndex = none
  · rw [if_pos h1] at h
    exact Except.noConfusion h
  · rw [if_neg h1] at h
    cases hpt : pyTruthy elevation with
    | false =>
      rw [hpt] at h
      simp at h
    | true =>
      rw [hpt] at h
      simp only [if_true] at h
      by_cases hfo : l.floor.isSome = true
      · rw [if_pos hfo] at h
        by_cases hc : l.floor.getD 0 ≤ elevation.getD 0 ∧
            (pyTruthy l.roof = false ∨ elevation.getD 0 < l.roof.getD 0)
        · rw [if_pos hc] at h
          exact Except.noConfusion h
        · rw [if_neg hc] at h
          exact Except.noConfusion h
      · rw [if_neg hfo] at h
        simp at h
        exact h.symm

theorem selectLevels_error (elevation levelIndex : Option Int) :
    ∀ ls er, selectLevels elevation levelIndex ls = .error er → er = .typeError := by
  intro ls
  induction ls with
  | nil =>
    intro er h
    exact Except.noConfusion h
  | cons l ls ih =>
    intro er h
    rw [selectLevels] at h
    cases hfs : l.frameSelected elevation levelIndex with
    | error e' =>
      rw [hfs] at h
      simp at h
      rw [← h]
      exact frameSelected_error l elevation levelIndex e' hfs
    | ok b =>
      rw [hfs] at h
      cases hsl : selectLevels elevation levelIndex ls with
      | error e' =>
        rw [hsl] at h
        simp at h
        rw [← h]
        exact ih e' hsl
      | ok rest =>
        rw [hsl] at h
        simp at h

theorem selectRows_error (elevation levelIndex : Option Int) :
    ∀ ds er, selectRows elevation levelIndex ds = .error er → er = .typeError := by
  intro ds
  induction ds with
  | nil =>
    intro er h
    exact Except.noConfusion h
  | cons p ps ih =>
    intro er h
    rw [selectRows] at h
    cases hp : p.2.present with
    | false =>
      rw [hp] at h
      simp at h
      exact ih er h
    | true =>
      rw [hp] at h
      simp only [if_true] at h
      cases hsl : selectLevels elevation levelIndex p.2.levels with
      | error e' =>
        rw [hsl] at h
        simp at h
        rw [← h]
        exact selectLevels_error elevation levelIndex p.2.levels e' hsl
      | ok sel =>
        rw [hsl] at h
        cases hsr : selectRows elevation levelIndex ps with
        | error e' =>
          rw [hsr] at h
          simp at h
          rw [← h]
          exact ih e' hsr
        | ok rest =>
          rw [hsr] at h
          simp at h

theorem get_region_error (tl : Timeline) (er : ApsError)
    (h : tl.get_region = .error er) : er = .emptyContainer := by
  unfold Timeline.get_region at h
  cases htl : tl.days with
  | nil =>
    rw [htl] at h
    simp at h
    exact h.symm
  | cons p ps =>
    rw [htl] at h
    exact Except.noConfusion h

theorem timeline_frameRows_error (tl : Timeline) (elevation levelIndex : Option Int)
    (er : ApsError) (h : tl.frameRows elevation levelIndex = .error er) :
    er = .typeError ∨ er = .emptyContainer := by
  unfold Timeline.frameRows at h
  cases hsr : selectRows elevation levelIndex tl.days with
  | error e' =>
    rw [hsr] at h
    simp at h
    exact Or.inl (h ▸ selectRows_error elevation levelIndex tl.days e' hsr)
  | ok rows =>
    rw [hsr] at h
    cases hgr : tl.get_region with
    | error e' =>
      rw [hgr] at h
      simp at h
      exact Or.inr (h ▸ get_region_error tl e' hgr)
    | ok r =>
      rw [hgr] at h
      exact Except.noConfusion h

theorem apsRows_error (elevation levelIndex : Option Int) :
    ∀ ps er, apsRows elevation levelIndex ps = .error er →
      er = .typeError ∨ er = .emptyContainer := by
  intro ps
  induction ps with
  | nil =>
    intro er h
    exact Except.noConfusion h
  | cons p ps ih =>
    intro er h
    rw [apsRows] at h
    by_cases hp : p.2.days.isEmpty = true
    · rw [if_pos hp] at h
      exact ih er h
    · rw [if_neg hp] at h
      cases hfr : p.2.frameRows elevation levelIndex with
      | error e' =>
        rw [hfr] at h
        simp at h
        exact h ▸ timeline_frameRows_error p.2 elevation levelIndex e' hfr
      | ok rows =>
        rw [hfr] at h
        cases hgr : p.2.get_region with
        | error e' =>
          rw [hgr] at h
          simp at h
          exact Or.inr (h ▸ get_region_error p.2 e' hgr)
        | ok r =>
          rw [hgr] at h
          cases har : apsRows elevation levelIndex ps with
          | error e' =>
            rw [har] at h
            simp at h
            exact h ▸ ih e' har
          | ok rest =>
            rw [har] at h
            simp at h

/-- C7 (amended): only `Day.to_frame` validates the mutually exclusive
filters — supplying both there fails with `InvalidArgument` — while the
`Timeline` and `Aps` exports perform no such validation and can never
produce `InvalidArgument`; their two filters combine disjunctively. -/
theorem frame_filter_validation :
    (∀ (d : Day) (ev li : Int), Day.frameRows d (some ev) (some li) = .error .invalidArgument) ∧
    (∀ (tl : Timeline) (ev li : Option Int),
      Timeline.frameRows tl ev li ≠ .error .invalidArgument) ∧
    (∀ (aps : Aps) (ev li : Option Int), Aps.frameRows aps ev li ≠ .error .invalidArgument) := by
  refine ⟨?_, ?_, ?_⟩
  · intro d ev li
    rw [Day.frameRows, if_pos (by simp)]
  · intro tl ev li h
    rcases timeline_frameRows_error tl ev li _ h with h' | h' <;> exact ApsError.noConfusion h'
  · intro aps ev li h
    rcases apsRows_error ev li _ _ h with h' | h' <;> exact ApsError.noConfusion h'

def apsC7 : Aps := ⟨[(3003, tlC6)]⟩

theorem frame_filter_validation_counterexample :
    Timeline.frameRows tlC6 (some 500) (some 1) = .ok [(5, lvlC6)] ∧
    Aps.frameRows apsC7 (some 500) (some 1) = .ok [(3003, [(5, lvlC6)])] :=
  ⟨rfl, rfl⟩

theorem frame_filter_validation_witness :
    Day.frameRows dayC6 (some 500) (some 1) = .error .invalidArgument ∧
    Timeline.frameRows tlC6 (some 500) (some 1) ≠ .error .invalidArgument :=
  ⟨frame_filter_validation.1 dayC6 500 1,
    frame_filter_validation.2.1 tlC6 (some 500) (some 1)⟩

/-! ## Region derivation and deserialization (claims C8, C9, C10) -/

/-- C8: deriving the region of a timeline with no records fails with
`EmptyContainerError`; for a timeline whose records all share one region
(the §3 invariant), the region of any present record — in particular the
first present one — is returned. -/
theorem get_region_first_present (tl : Timeline) :
    (tl.days = [] → tl.get_region = .error .emptyContainer) ∧
    (∀ r : SnowRegion, (∀ p ∈ tl.days, (p.2 : Day).region = r) →
      ∀ pd ∈ tl.days, (pd.2 : Day).present = true → tl.get_region = .ok pd.2.region) := by
  constructor
  · intro h
    unfold Timeline.get_region
    rw [h]
  · intro r hall pd hpd hpres
    cases htl : tl.days with
    | nil =>
      rw [htl] at hpd
      simp at hpd
    | cons q qs =>
      unfold Timeline.get_region
      rw [htl]
      have h1 : q.2.region = r := hall q (by rw [htl]; simp)
      have h2 : pd.2.region = r := hall pd hpd
      show Except.ok q.2.region = Except.ok pd.2.region
      rw [h1, h2]

def dayC8e : Day :=
  { date := 1, region := 3003, levels := [] }

def tlC8 : Timeline := ⟨[(1, dayC8e), (5, dayC6)]⟩

theorem get_region_first_present_witness :
    Timeline.get_region tlC8 = .ok dayC6.region :=
  (get_region_first_present tlC8).2 3003 (by decide) (5, dayC6) (by decide) (by decide)

/-- C9: measurement deserialization populates `perc95` from the wire key
`"Perc05"`, so a fresh `Measurement` always has `perc95 = perc05`, and
the wire key `"Perc95"` is never read (the result is invariant under
changing it). -/
theorem data_deserialize_perc95 (j : ApsJsonData) :
    (Data.deserialize j).perc95 = some j.Perc05 ∧
    (Data.deserialize j).perc95 = (Data.deserialize j).perc05 ∧
    ∀ v : Int, Data.deserialize { j with Perc95 := v } = Data.deserialize j :=
  ⟨rfl, rfl, fun _ => rfl⟩

/-- C10: a payload whose `TimeLine` list is empty deserializes at
`Timeline` level to an empty timeline, but `Aps.deserialize` on it fails
with the empty-container error raised by region derivation, producing no
dataset. -/
theorem aps_deserialize_empty_timeline (j : ApsJsonFull) (dataType : WeatherParam)
    (h : j.TimeLine = []) :
    Timeline.deserialize j dataType = .ok ⟨[]⟩ ∧
    Aps.deserialize j dataType = .error .emptyContainer := by
  have ht : Timeline.deserialize j dataType = .ok ⟨[]⟩ := by
    unfold Timeline.deserialize
    rw [h]
    rfl
  refine ⟨ht, ?_⟩
  unfold Aps.deserialize
  rw [ht]
  rfl

theorem aps_deserialize_empty_timeline_witness :
    Timeline.deserialize ⟨[]⟩ WeatherParam.temp = .ok ⟨[]⟩ ∧
    Aps.deserialize ⟨[]⟩ WeatherParam.temp = .error .emptyContainer :=
  aps_deserialize_empty_timeline ⟨[]⟩ .temp rfl
